import Mathlib

/-!
Verification development for the calstools application (`src/app.py`).

The file shallow-embeds the core extraction-to-event pipeline:

* `clean_json_string` (lines 102-106): fence-token removal via
  `re.sub(r'```json\s*|\s*```', '', s)`, `str.strip()`, and the Python
  slice `s[s.find('{') : s.rfind('}')+1]`.
* the body of `create_google_calendar_event` (lines 134-213): field
  extraction with defaults, single-string date coercion, strict
  `datetime.strptime(date, "%Y년 %m월 %d일 %H:%M")` parsing with the
  now+7days fallback on `ValueError`, the reminder-policy mapping, and the
  per-date insert loop with its exception handling.

Timestamps are modelled at minute granularity as `Nat` minutes since
0001-01-01T00:00 (proleptic Gregorian, exactly Python's
`datetime.toordinal` arithmetic).  Sub-minute parts of `datetime.now()`
cancel in every computation the claims concern (the 08:45 reminder uses
`dt.replace(hour=8, minute=45) - dt`, and `replace` keeps seconds and
microseconds), so minute granularity is faithful.

Python `\s` and `str.strip()` are modelled on the ASCII whitespace class;
no claim concerns non-ASCII whitespace.
-/

namespace Cals

/-! ### Characters and Python string primitives -/

/-- The `{` character (Python `'{'`). -/
def openBrace : Char := '\x7b'

/-- The `}` character (Python `'}'`). -/
def closeBrace : Char := '\x7d'

/-- The backtick character. -/
def btick : Char := '\x60'

/-- ASCII whitespace, the characters matched by Python `\s` / stripped by
`str.strip()` (restricted to ASCII). -/
def isWs (c : Char) : Bool :=
  c = ' ' || c = '\t' || c = '\n' || c = '\r' || c = '\x0b' || c = '\x0c'

/-- Test whether `p` starts `s` (used to model regex literal matching at
the current scan position). -/
def hasPref : List Char → List Char → Bool
  | [], _ => true
  | _ :: _, [] => false
  | p :: ps, c :: cs => p = c && hasPref ps cs

/-- The literal three-backtick fence token. -/
def fence : List Char := [btick, btick, btick]

/-- The literal `​```json` token (first regex alternative). -/
def fenceJson : List Char := fence ++ ['j', 's', 'o', 'n']

/-- One pass of `re.sub(r'```json\s*|\s*```', '', s)`, fuelled so that the
definition is structurally recursive (the fuel is the string length, and
every recursive call consumes at least one character per fuel unit, so the
fuel never runs out on `subFences`'s call).  Scanning is leftmost-first
with the first alternative (` ```json ` plus greedy trailing whitespace)
preferred, exactly as Python's `re.sub` does. -/
def subFencesF : Nat → List Char → List Char
  | _, [] => []
  | 0, s => s
  | fuel + 1, c :: cs =>
    if hasPref fenceJson (c :: cs) then
      subFencesF fuel (((c :: cs).drop 7).dropWhile isWs)
    else if hasPref fence ((c :: cs).dropWhile isWs) then
      subFencesF fuel (((c :: cs).dropWhile isWs).drop 3)
    else
      c :: subFencesF fuel cs

/-- Model of `re.sub(r'```json\s*|\s*```', '', s)` — app.py line 103. -/
def subFences (s : List Char) : List Char := subFencesF s.length s

/-- Python `str.strip()` — app.py line 104 (ASCII whitespace). -/
def stripChars (s : List Char) : List Char :=
  ((s.dropWhile isWs).reverse.dropWhile isWs).reverse

/-- Index of the first element satisfying `p`, or `none`; Python
`str.find` / `str.rfind` (through `reverse`) are built on this. -/
def findIdxA (p : Char → Bool) : List Char → Option Nat
  | [] => none
  | c :: cs => if p c then some 0 else (findIdxA p cs).map (· + 1)

/-- Python `s.find(c)`: first index of `c`, or `-1`. -/
def pyFind (s : List Char) (c : Char) : Int :=
  match findIdxA (fun x => x == c) s with
  | some i => (i : Int)
  | none => -1

/-- Python `s.rfind(c)`: last index of `c`, or `-1`. -/
def pyRfind (s : List Char) (c : Char) : Int :=
  match findIdxA (fun x => x == c) s.reverse with
  | some i => (s.length : Int) - 1 - (i : Int)
  | none => -1

/-- Normalization of one Python slice index against length `n`:
negative indices count from the end (clamped below by 0), non-negative
indices are clamped above by `n`. -/
def pyIndexNorm (n : Nat) (i : Int) : Nat :=
  if i < 0 then ((n : Int) + i).toNat else min i.toNat n

/-- Python slice `s[a:b]` for integer indices. -/
def pySlice (s : List Char) (a b : Int) : List Char :=
  (s.take (pyIndexNorm s.length b)).drop (pyIndexNorm s.length a)

/-- App.py line 105: `json_string[json_string.find('{') : json_string.rfind('}')+1]`. -/
def braceSlice (t : List Char) : List Char :=
  pySlice t (pyFind t openBrace) (pyRfind t closeBrace + 1)

/-- Model of `clean_json_string` — app.py lines 102-106. -/
def clean_json_string (s : List Char) : List Char :=
  braceSlice (stripChars (subFences s))

/-- Whether `s` contains three consecutive backticks, the substring both
regex alternatives of line 103 require. -/
def hasFence : List Char → Bool
  | [] => false
  | c :: cs => hasPref fence (c :: cs) || hasFence cs

/-! ### Calendar timestamps (proleptic Gregorian, minute granularity) -/

/-- Gregorian leap-year predicate (as in Python `calendar`/`datetime`). -/
def isLeap (y : Nat) : Bool :=
  y % 4 = 0 && (y % 100 ≠ 0 || y % 400 = 0)

/-- Days in month `m` of year `y`. -/
def daysInMonth (y m : Nat) : Nat :=
  if m = 2 then (if isLeap y then 29 else 28)
  else if m = 4 ∨ m = 6 ∨ m = 9 ∨ m = 11 then 30
  else 31

/-- Days in year `y` strictly before month `m`. -/
def daysBeforeMonth (y m : Nat) : Nat :=
  (List.range (m - 1)).foldl (fun acc i => acc + daysInMonth y (i + 1)) 0

/-- Days from 0001-01-01 to the given date (Python `toordinal() - 1`). -/
def toOrdinal (y m d : Nat) : Nat :=
  365 * (y - 1) + (y - 1) / 4 - (y - 1) / 100 + (y - 1) / 400
    + daysBeforeMonth y m + (d - 1)

/-- Minutes since 0001-01-01T00:00 of a civil date-time. -/
def dtOf (y m d h mi : Nat) : Nat :=
  toOrdinal y m d * 1440 + h * 60 + mi

/-- Model of `dt.replace(hour=h, minute=m)` at minute granularity. -/
def replaceTime (dt h m : Nat) : Nat := dt - dt % 1440 + h * 60 + m

/-! ### `datetime.strptime(date, "%Y년 %m월 %d일 %H:%M")`

In CPython's `_strptime`, `%Y` compiles to `\d\d\d\d`, `%m` to
`1[0-2]|0[1-9]|[1-9]`, `%d` to `3[01]|[12]\d|0[1-9]|[1-9]`, `%H` to
`2[0-3]|[0-1]\d|\d`, `%M` to `[0-5]\d|\d`; literal whitespace in the
format becomes `\s+`, the other literals match themselves, and the match
must cover the entire input.  Because every numeric field is followed by a
non-digit literal, regex backtracking never changes the outcome, so each
field can be parsed greedily with a deterministic two-digit/one-digit case
split.  `datetime`'s constructor then rejects year 0 and a day beyond the
month length with `ValueError` (which app.py line 162 catches). -/

/-- The value of a decimal digit character. -/
def dval (c : Char) : Nat := c.toNat - '0'.toNat

/-- Field `%Y`: exactly four digits. -/
def parse4 : List Char → Option (Nat × List Char)
  | a :: b :: c :: d :: rest =>
    if a.isDigit && b.isDigit && c.isDigit && d.isDigit then
      some (dval a * 1000 + dval b * 100 + dval c * 10 + dval d, rest)
    else none
  | _ => none

/-- A literal character of the format string. -/
def parseLit (c : Char) : List Char → Option (List Char)
  | x :: rest => if x = c then some rest else none
  | [] => none

/-- Token `\s+`: at least one whitespace character, consumed greedily. -/
def parseWs : List Char → Option (List Char)
  | c :: rest => if isWs c then some (rest.dropWhile isWs) else none
  | [] => none

/-- Field `%m`: `1[0-2]|0[1-9]|[1-9]`. -/
def parseMonth : List Char → Option (Nat × List Char)
  | a :: b :: rest =>
    if a = '1' && b.isDigit && dval b ≤ 2 then some (10 + dval b, rest)
    else if a = '0' && b.isDigit && 1 ≤ dval b then some (dval b, rest)
    else if a.isDigit && 1 ≤ dval a then some (dval a, b :: rest)
    else none
  | [a] => if a.isDigit && 1 ≤ dval a then some (dval a, []) else none
  | [] => none

/-- Field `%d`: `3[01]|[12]\d|0[1-9]|[1-9]`. -/
def parseDay : List Char → Option (Nat × List Char)
  | a :: b :: rest =>
    if a = '3' && (b = '0' || b = '1') then some (30 + dval b, rest)
    else if (a = '1' || a = '2') && b.isDigit then some (dval a * 10 + dval b, rest)
    else if a = '0' && b.isDigit && 1 ≤ dval b then some (dval b, rest)
    else if a.isDigit && 1 ≤ dval a then some (dval a, b :: rest)
    else none
  | [a] => if a.isDigit && 1 ≤ dval a then some (dval a, []) else none
  | [] => none

/-- Field `%H`: `2[0-3]|[0-1]\d|\d`. -/
def parseHour : List Char → Option (Nat × List Char)
  | a :: b :: rest =>
    if a = '2' && b.isDigit && dval b ≤ 3 then some (20 + dval b, rest)
    else if (a = '0' || a = '1') && b.isDigit then some (dval a * 10 + dval b, rest)
    else if a.isDigit then some (dval a, b :: rest)
    else none
  | [a] => if a.isDigit then some (dval a, []) else none
  | [] => none

/-- Field `%M`: `[0-5]\d|\d`. -/
def parseMin : List Char → Option (Nat × List Char)
  | a :: b :: rest =>
    if a.isDigit && dval a ≤ 5 && b.isDigit then some (dval a * 10 + dval b, rest)
    else if a.isDigit then some (dval a, b :: rest)
    else none
  | [a] => if a.isDigit then some (dval a, []) else none
  | [] => none

/-- Model of `datetime.strptime(s, "%Y년 %m월 %d일 %H:%M")`, returning the parsed
timestamp in minutes, or `none` exactly when CPython raises `ValueError`
(no match, trailing input, year 0, or day out of range for the month). -/
def parseDateStr (s : List Char) : Option Nat := do
  let (y, s) ← parse4 s
  let s ← parseLit '년' s
  let s ← parseWs s
  let (m, s) ← parseMonth s
  let s ← parseLit '월' s
  let s ← parseWs s
  let (d, s) ← parseDay s
  let s ← parseLit '일' s
  let s ← parseWs s
  let (h, s) ← parseHour s
  let s ← parseLit ':' s
  let (mi, s) ← parseMin s
  if s = [] ∧ 1 ≤ y ∧ d ≤ daysInMonth y m then pure (dtOf y m d h mi) else none

/-! ### The decoded wire object and the event record (app.py lines 146-155)

`EventDict` models the mapping produced by `json.loads(event_info)`,
restricted to the value shapes the claims concern: the four text fields
are optional strings, and the `일시` value may be a single string, an
array whose elements are strings or non-string JSON scalars, or a
non-iterable non-string scalar (number / boolean / null).  JSON-object
values are not modelled. -/

/-- A JSON array element of the `일시` field: either a string or a
non-string value (`datetime.strptime` raises `TypeError` on the latter,
which the inner `except ValueError` of line 162 does not catch). -/
inductive JVal
  | str (s : List Char)
  | other
deriving DecidableEq

/-- The `일시` value as decoded: a single string, an array, or a
non-iterable non-string scalar (iterating it at line 159 raises
`TypeError`). -/
inductive DatesVal
  | str (s : List Char)
  | arr (xs : List JVal)
  | other
deriving DecidableEq

/-- The decoded mapping, app.py line 146. -/
structure EventDict where
  subject? : Option String
  dates? : Option DatesVal
  location? : Option String
  description? : Option String
  reminder? : Option String
deriving DecidableEq

/-- The `dates` variable after lines 149 and 154-155: the `.get` default
`[]`, with a single string coerced to a one-element list; a non-iterable
scalar is kept as `notIterableScalar` and makes the loop of line 159
raise. -/
inductive DatesField
  | list (xs : List JVal)
  | notIterableScalar
deriving DecidableEq

/-- Lines 149 and 154-155. -/
def coerceDates : Option DatesVal → DatesField
  | none => .list []
  | some (.str s) => .list [.str s]
  | some (.arr xs) => .list xs
  | some .other => .notIterableScalar

/-- The event record read at lines 148-155 (variables `text`, `dates`,
`location`, `details`, `reminder`). -/
structure EventRecord where
  subject : String
  dates : DatesField
  location : String
  description : String
  reminder : String
deriving DecidableEq

/-- Lines 148-155: `event_dict.get` with the respective defaults. -/
def parseEventRecord (d : EventDict) : EventRecord where
  subject := d.subject?.getD ""
  dates := coerceDates d.dates?
  location := d.location?.getD ""
  description := d.description?.getD ""
  reminder := d.reminder?.getD "기본 알림"

/-! ### Reminder resolution (app.py lines 181-199) -/

/-- The `reminders` block of the event payload: `useDefault`, plus the
explicit `overrides` list of `(method, minutes)` pairs (empty, and absent
in the source dict, when `useDefault` is true). -/
structure RemindersSpec where
  useDefault : Bool
  overrides : List (String × Int)
deriving DecidableEq

/-- Lines 181-199: map the reminder tag and the resolved start to the
reminders block.  The `당일 오전 8시 45분` branch computes
`int((dt.replace(hour=8, minute=45) - dt).total_seconds() / 60)` — exact
at minute granularity — clamped below by 0. -/
def resolveReminders (reminder : String) (dt : Nat) : RemindersSpec :=
  if reminder = "이벤트 2일 전" then
    { useDefault := false, overrides := [("popup", (2 * 24 * 60 : Int))] }
  else if reminder = "당일 오전 8시 45분" then
    let m0 : Int := (replaceTime dt 8 45 : Int) - (dt : Int)
    let m1 : Int := if m0 < 0 then 0 else m0
    { useDefault := false, overrides := [("popup", m1)] }
  else
    { useDefault := true, overrides := [] }

/-! ### The materialization loop (app.py lines 157-213) -/

/-- The event payload built at lines 167-199 for one date (the constant
`timeZone: Asia/Seoul` fields are omitted; `endTime` is the source's
`end` key). -/
structure EventDraft where
  summary : String
  location : String
  description : String
  start : Nat
  endTime : Nat
  reminders : RemindersSpec
deriving DecidableEq

/-- Lines 159-199 for one string entry `date`: strict parse with the
`except ValueError` fallback `datetime.now() + timedelta(days=7)`
(line 163), `end_time = dt + timedelta(hours=1)` (line 165), and the
reminder block. -/
def buildDraft (now : Nat) (subject location details reminder : String)
    (date : List Char) : EventDraft :=
  let dt := match parseDateStr date with
    | some v => v
    | none => now + 7 * 1440
  { summary := subject, location := location, description := details,
    start := dt, endTime := dt + 60, reminders := resolveReminders reminder dt }

/-- Outcome of one `service.events().insert(...).execute()` call
(line 201): a created-event handle, an `HttpError` with a status code, or
any other exception. -/
inductive InsertResult
  | ok (handle : Nat)
  | httpError (status : Nat)
  | exn
deriving DecidableEq

/-- The failure condition signalled by the handlers at lines 205-213:
`authRequired` for the missing credential and for `HttpError` status
401/403, `providerError` for other `HttpError`s, `unexpectedError` for
any other exception.  In every case the function returns `None`. -/
inductive FailCond
  | authRequired
  | providerError
  | unexpectedError
deriving DecidableEq

/-- The observable result of `create_google_calendar_event`: the `None`
return together with the condition signalled, or the `created_events`
list.  -/
inductive RunOutcome
  | failure (cond : FailCond)
  | success (handles : List Nat)
deriving DecidableEq

/-- The loop of lines 159-202.  `svc` gives the outcome of the `idx`-th
insert call for the submitted draft (indexed so that successive calls may
behave differently, as a real service does); `created` accumulates the
returned handles and `submitted` the drafts the provider actually created
— on an exception the source discards `created_events`, but the
server-side inserts already performed are not undone.  The third
component is the failure condition of the `except` handler that catches
the loop's exception, if any. -/
def runDates (svc : Nat → EventDraft → InsertResult) (now : Nat)
    (subject location details reminder : String) :
    Nat → List JVal → List Nat → List EventDraft →
    List Nat × List EventDraft × Option FailCond
  | _, [], created, submitted => (created, submitted, none)
  | _, .other :: _, created, submitted =>
    (created, submitted, some .unexpectedError)
  | idx, .str s :: rest, created, submitted =>
    let draft := buildDraft now subject location details reminder s
    match svc idx draft with
    | .ok h =>
      runDates svc now subject location details reminder
        (idx + 1) rest (created ++ [h]) (submitted ++ [draft])
    | .httpError st =>
      (created, submitted,
        some (if st = 401 ∨ st = 403 then .authRequired else .providerError))
    | .exn => (created, submitted, some .unexpectedError)

/-- Package the loop's result as the function's return value: with no
exception, line 204 returns `created_events`; with one, the matching
handler of lines 205-213 returns `None` after signalling the condition. -/
def finishRun : List Nat × List EventDraft × Option FailCond →
    List EventDraft × RunOutcome
  | (created, submitted, none) => (submitted, .success created)
  | (_, submitted, some c) => (submitted, .failure c)

/-- Dispatch on the shape of the `dates` value: a non-iterable scalar
makes line 159 raise `TypeError`, caught by the generic handler of
line 211; a list runs the loop. -/
def runDatesField (svc : Nat → EventDraft → InsertResult) (now : Nat)
    (subject location details reminder : String) :
    DatesField → List EventDraft × RunOutcome
  | .notIterableScalar => ([], .failure .unexpectedError)
  | .list xs =>
    finishRun (runDates svc now subject location details reminder 0 xs [] [])

/-- Model of `create_google_calendar_event` — app.py lines 134-213, from the
decoded mapping.  `hasCred` abstracts the two credential checks of lines
135-142 (both signal the authorization warning and return `None`).  The
first component is the list of drafts the provider created (the
server-side effect trace), the second the function's observable result. -/
def create_google_calendar_event (hasCred : Bool)
    (svc : Nat → EventDraft → InsertResult) (now : Nat) (d : EventDict) :
    List EventDraft × RunOutcome :=
  if hasCred = false then ([], .failure .authRequired)
  else
    let r := parseEventRecord d
    runDatesField svc now r.subject r.location r.description r.reminder r.dates

/-- The handles returned by `k` successive successful inserts starting at
call index `idx`, when the `i`-th call returns handle `h i`. -/
def handlesFrom (h : Nat → Nat) : Nat → Nat → List Nat
  | _, 0 => []
  | idx, k + 1 => h idx :: handlesFrom h (idx + 1) k

/-! ### Concrete inputs used by the counterexamples -/

/-- The input `"{`` ````}"`: one `re.sub` pass removes only the
occurrence ` ``` `, and the glued-together remainder `"{```}"` contains
a fresh fence token, so a second `clean_json_string` differs. -/
def c7cexIn : List Char :=
  [openBrace, btick, btick, ' ', btick, btick, btick, btick, closeBrace]

/-- A service whose first insert succeeds (handle 7) and whose later
calls are rejected with `HttpError` 401 (a token can expire, and Google
also uses 403 for quota, mid-batch). -/
def c1svc : Nat → EventDraft → InsertResult :=
  fun i _ => if i = 0 then .ok 7 else .httpError 401

/-- A record with two dates. -/
def c1dict : EventDict :=
  ⟨some "행사", some (.arr [.str ("a".toList), .str ("b".toList)]),
    none, none, none⟩

/-- A record whose dates array holds a non-string value followed by a
well-formed date string. -/
def c3dict : EventDict :=
  ⟨none, some (.arr [JVal.other,
    .str ("2024년 03월 15일 10:00".toList)]), none, none, none⟩

/-! ### Helper lemmas about the string primitives -/

theorem findIdxA_eq_none {p : Char → Bool} {l : List Char}
    (h : ∀ a ∈ l, p a = false) : findIdxA p l = none := by
  induction l with
  | nil => rfl
  | cons a l ih =>
    simp only [findIdxA, h a (List.mem_cons_self a l), Bool.false_eq_true,
      if_false]
    rw [ih fun x hx => h x (List.mem_cons_of_mem a hx)]
    rfl

theorem findIdxA_some_lt {p : Char → Bool} {l : List Char} {i : Nat}
    (h : findIdxA p l = some i) : i < l.length := by
  induction l generalizing i with
  | nil => simp [findIdxA] at h
  | cons a l ih =>
    by_cases hp : p a
    · simp [findIdxA, hp] at h
      simp only [List.length_cons]
      omega
    · simp only [findIdxA, hp, Bool.false_eq_true, if_false,
        Option.map_eq_some'] at h
      obtain ⟨j, hj, rfl⟩ := h
      have := ih hj
      simp only [List.length_cons]
      omega

theorem findIdxA_some_get {p : Char → Bool} {l : List Char} {i : Nat}
    (h : findIdxA p l = some i) : ∃ a, l[i]? = some a ∧ p a = true := by
  induction l generalizing i with
  | nil => simp [findIdxA] at h
  | cons a l ih =>
    by_cases hp : p a
    · simp [findIdxA, hp] at h
      exact ⟨a, by simp [← h], hp⟩
    · simp only [findIdxA, hp, Bool.false_eq_true, if_false,
        Option.map_eq_some'] at h
      obtain ⟨j, hj, rfl⟩ := h
      obtain ⟨b, hb, hpb⟩ := ih hj
      exact ⟨b, by simpa [List.getElem?_cons_succ] using hb, hpb⟩

theorem drop_pred_eq_getLast? (l : List Char) :
    l.drop (l.length - 1) = l.getLast?.toList := by
  induction l with
  | nil => rfl
  | cons a l ih =>
    cases l with
    | nil => rfl
    | cons b l' =>
      have h1 : (a :: b :: l').length - 1 = (b :: l').length := by
        simp
      rw [h1]
      have h2 : (a :: b :: l').drop ((b :: l').length) =
          (b :: l').drop ((b :: l').length - 1) := by
        simp only [List.length_cons, List.drop_succ_cons, Nat.add_sub_cancel]
      rw [h2, ih, List.getLast?_cons_cons]

theorem getLast?_drop_of_lt {l : List Char} {i : Nat} (h : i < l.length) :
    (l.drop i).getLast? = l.getLast? := by
  induction l generalizing i with
  | nil => simp at h
  | cons a l ih =>
    cases i with
    | zero => rfl
    | succ k =>
      have hk : k < l.length := by simpa using h
      rw [List.drop_succ_cons, ih hk]
      cases l with
      | nil => simp at hk
      | cons b l' => rw [List.getLast?_cons_cons]

theorem getLast?_take_eq {l : List Char} {b : Nat} (h0 : 0 < b)
    (h1 : b ≤ l.length) : (l.take b).getLast? = l[b - 1]? := by
  induction l generalizing b with
  | nil => simp at h1; omega
  | cons a l ih =>
    match b with
    | 1 =>
      cases l with
      | nil => rfl
      | cons c l' => rfl
    | k + 2 =>
      have hk : k + 1 ≤ l.length := by simpa using h1
      have htk : l.take (k + 1) ≠ [] := by
        have hlen : (l.take (k + 1)).length = k + 1 := by
          rw [List.length_take]
          omega
        intro hnil
        rw [hnil] at hlen
        simp at hlen
      rw [List.take_succ_cons]
      have hcc : (a :: l.take (k + 1)).getLast? = (l.take (k + 1)).getLast? := by
        cases hl : l.take (k + 1) with
        | nil => exact absurd hl htk
        | cons c l' => rw [List.getLast?_cons_cons]
      rw [hcc, ih (Nat.succ_pos k) hk]
      simp [List.getElem?_cons_succ]

theorem hasPref_append_left {p q s : List Char}
    (h : hasPref (p ++ q) s = true) : hasPref p s = true := by
  induction p generalizing s with
  | nil => rfl
  | cons x p' ih =>
    cases s with
    | nil => simp [hasPref] at h
    | cons y s' =>
      simp only [List.cons_append, hasPref, Bool.and_eq_true] at h ⊢
      exact ⟨h.1, ih h.2⟩

theorem hasFence_of_dropWhile {l : List Char}
    (h : hasFence (l.dropWhile isWs) = true) : hasFence l = true := by
  induction l with
  | nil => simpa using h
  | cons a l ih =>
    rw [List.dropWhile_cons] at h
    by_cases hw : isWs a
    · simp only [hw, if_true] at h
      simp [hasFence, ih h]
    · simp only [hw, Bool.false_eq_true, if_false] at h
      exact h

theorem hasFence_of_hasPref {l : List Char}
    (h : hasPref fence l = true) : hasFence l = true := by
  cases l with
  | nil => simp [hasPref, fence] at h
  | cons a l' => simp [hasFence, h]

theorem subFencesF_eq_self :
    ∀ (fuel : Nat) (s : List Char), hasFence s = false →
      subFencesF fuel s = s := by
  intro fuel
  induction fuel with
  | zero => intro s _; cases s <;> rfl
  | succ n ih =>
    intro s h
    cases s with
    | nil => rfl
    | cons c cs =>
      have hsplit : hasPref fence (c :: cs) = false ∧ hasFence cs = false := by
        simpa [hasFence] using h
      have h1 : hasPref fenceJson (c :: cs) = false := by
        cases hj : hasPref fenceJson (c :: cs)
        · rfl
        · exact absurd (hasPref_append_left (q := ['j', 's', 'o', 'n']) hj)
            (by simp [hsplit.1])
      have h2 : hasPref fence ((c :: cs).dropWhile isWs) = false := by
        cases hj : hasPref fence ((c :: cs).dropWhile isWs)
        · rfl
        · have : hasFence (c :: cs) = true :=
            hasFence_of_dropWhile (hasFence_of_hasPref hj)
          rw [this] at h
          simp at h
      simp only [subFencesF, h1, h2, Bool.false_eq_true, if_false]
      rw [ih cs hsplit.2]

theorem subFences_eq_self {s : List Char} (h : hasFence s = false) :
    subFences s = s :=
  subFencesF_eq_self s.length s h

theorem stripChars_eq_self {t : List Char}
    (h1 : t.head? = some openBrace) (h2 : t.getLast? = some closeBrace) :
    stripChars t = t := by
  cases t with
  | nil => simp at h1
  | cons c cs =>
    have hc : c = openBrace := by simpa using h1
    have hw : isWs c = false := by rw [hc]; decide
    have hdw : (c :: cs).dropWhile isWs = c :: cs := by
      rw [List.dropWhile_cons, hw]
      simp
    unfold stripChars
    rw [hdw]
    have hrev : (c :: cs).reverse.head? = some closeBrace := by
      rw [List.head?_reverse]
      exact h2
    cases hr : (c :: cs).reverse with
    | nil => simp [hr] at hrev
    | cons d ds =>
      have hd : d = closeBrace := by
        rw [hr] at hrev
        simpa using hrev
      have hwd : isWs d = false := by rw [hd]; decide
      have hdds : List.dropWhile isWs (d :: ds) = d :: ds := by
        rw [List.dropWhile_cons, hwd]
        simp
      rw [hdds, ← hr, List.reverse_reverse]

/-! ### The three value cases of the slice at line 105 -/

theorem braceSlice_no_close {t : List Char}
    (h : findIdxA (fun x => x == closeBrace) t.reverse = none) :
    braceSlice t = [] := by
  unfold braceSlice pyRfind
  rw [h]
  simp [pySlice, pyIndexNorm]

theorem braceSlice_close_no_open {t : List Char} {jr : Nat}
    (hjr : findIdxA (fun x => x == closeBrace) t.reverse = some jr)
    (hi : findIdxA (fun x => x == openBrace) t = none) :
    braceSlice t = (t.take (t.length - jr)).drop (t.length - 1) := by
  have hjr' : jr < t.length := by
    have := findIdxA_some_lt hjr
    simpa using this
  unfold braceSlice pyFind pyRfind
  rw [hi, hjr]
  have e1 : pyIndexNorm t.length (-1) = t.length - 1 := by
    unfold pyIndexNorm
    rw [if_pos (by omega)]
    omega
  have e2 : pyIndexNorm t.length ((t.length : Int) - 1 - (jr : Int) + 1)
      = t.length - jr := by
    unfold pyIndexNorm
    rw [if_neg (by omega)]
    omega
  unfold pySlice
  rw [e1, e2]

theorem braceSlice_both {t : List Char} {i jr : Nat}
    (hi : findIdxA (fun x => x == openBrace) t = some i)
    (hjr : findIdxA (fun x => x == closeBrace) t.reverse = some jr) :
    braceSlice t = (t.take (t.length - jr)).drop i := by
  have hi' : i < t.length := findIdxA_some_lt hi
  have hjr' : jr < t.length := by
    have := findIdxA_some_lt hjr
    simpa using this
  unfold braceSlice pyFind pyRfind
  rw [hi, hjr]
  have e1 : pyIndexNorm t.length (i : Int) = i := by
    unfold pyIndexNorm
    rw [if_neg (by omega)]
    omega
  have e2 : pyIndexNorm t.length ((t.length : Int) - 1 - (jr : Int) + 1)
      = t.length - jr := by
    unfold pyIndexNorm
    rw [if_neg (by omega)]
    omega
  unfold pySlice
  rw [e1, e2]

/-- Every value of the slice at line 105 is empty, the single character
`}`, or a string that starts with `{` and ends with `}`. -/
theorem braceSlice_shape (t : List Char) :
    braceSlice t = [] ∨ braceSlice t = [closeBrace] ∨
      ((braceSlice t).head? = some openBrace ∧
        (braceSlice t).getLast? = some closeBrace) := by
  cases hjr : findIdxA (fun x => x == closeBrace) t.reverse with
  | none => exact Or.inl (braceSlice_no_close hjr)
  | some jr =>
    have hjr' : jr < t.length := by
      have := findIdxA_some_lt hjr
      simpa using this
    have hclose : t[t.length - 1 - jr]? = some closeBrace := by
      obtain ⟨a, ha, hpa⟩ := findIdxA_some_get hjr
      have ha' : a = closeBrace := by simpa using hpa
      rw [← List.getElem?_reverse hjr', ha, ha']
    cases hi : findIdxA (fun x => x == openBrace) t with
    | none =>
      rw [braceSlice_close_no_open hjr hi]
      by_cases hjr0 : jr = 0
      · subst hjr0
        rw [Nat.sub_zero, List.take_length, drop_pred_eq_getLast?]
        have hlast : t.getLast? = some closeBrace := by
          rw [List.getLast?_eq_head?_reverse, List.head?_eq_getElem?]
          obtain ⟨a, ha, hpa⟩ := findIdxA_some_get hjr
          have ha' : a = closeBrace := by simpa using hpa
          rw [ha, ha']
        rw [hlast]
        exact Or.inr (Or.inl rfl)
      · refine Or.inl (List.drop_eq_nil_of_le ?_)
        rw [List.length_take]
        omega
    | some i =>
      have hi' : i < t.length := findIdxA_some_lt hi
      have hopen : t[i]? = some openBrace := by
        obtain ⟨b, hb, hpb⟩ := findIdxA_some_get hi
        have hb' : b = openBrace := by simpa using hpb
        rw [hb, hb']
      rw [braceSlice_both hi hjr]
      by_cases hij : i < t.length - jr
      · refine Or.inr (Or.inr ⟨?_, ?_⟩)
        · rw [List.head?_drop, List.getElem?_take_of_lt hij, hopen]
        · have hlen : (t.take (t.length - jr)).length = t.length - jr := by
            rw [List.length_take]
            omega
          rw [getLast?_drop_of_lt (by omega),
            getLast?_take_eq (by omega) (by omega)]
          have : t.length - jr - 1 = t.length - 1 - jr := by omega
          rw [this, hclose]
      · refine Or.inl (List.drop_eq_nil_of_le ?_)
        rw [List.length_take]
        omega

/-- On a string that starts with `{` and ends with `}`, the slice at
line 105 is the identity. -/
theorem braceSlice_eq_self {t : List Char}
    (h1 : t.head? = some openBrace) (h2 : t.getLast? = some closeBrace) :
    braceSlice t = t := by
  cases t with
  | nil => simp at h1
  | cons c cs =>
    have hc : c = openBrace := by simpa using h1
    have hi : findIdxA (fun x => x == openBrace) (c :: cs) = some 0 := by
      simp [findIdxA, hc]
    have hrev : (c :: cs).reverse.head? = some closeBrace := by
      rw [List.head?_reverse]
      exact h2
    have hjr : findIdxA (fun x => x == closeBrace) (c :: cs).reverse
        = some 0 := by
      cases hr : (c :: cs).reverse with
      | nil => simp [hr] at hrev
      | cons d ds =>
        have hd : d = closeBrace := by
          rw [hr] at hrev
          simpa using hrev
        simp [findIdxA, hd]
    rw [braceSlice_both hi hjr, Nat.sub_zero, List.take_length,
      List.drop_zero]

/-! ### Claim C2 — the slice fallbacks of `clean_json_string` -/

/-- C2 counterexample: the claim states that a brace-free string is
returned whole after fence removal and trimming, but Python's
`find('{')` returns `-1` (the last character) and `rfind('}') + 1`
returns `0` when the braces are absent, so `"abc"[-1:0]` is empty:
`clean_json_string "abc"` is `""`, not `"abc"`. -/
theorem C2_counterexample :
    ¬ (clean_json_string ("abc".toList) = "abc".toList) := by decide

/-- C2 (amended): `clean_json_string` removes the fence tokens, trims,
and slices from the first `{` to the last `}` inclusive; but the
fallbacks are Python's `-1` results, not whole-string bounds: with no
`}` the end index is `0` and the result is empty; with a `}` but no `{`
the start index `-1` denotes the last character, so the result is the
last character exactly when the last `}` is final (and empty otherwise);
with both braces present (first `{` at `i`, last `}` at `length-1-jr`)
the result is the inclusive substring `(take (length-jr)).drop i`. -/
theorem C2_slice_fallbacks (s : List Char) :
    (closeBrace ∉ stripChars (subFences s) → clean_json_string s = []) ∧
    (findIdxA (fun x => x == openBrace) (stripChars (subFences s)) = none →
      ∀ jr, findIdxA (fun x => x == closeBrace)
          (stripChars (subFences s)).reverse = some jr →
        clean_json_string s =
          ((stripChars (subFences s)).take
            ((stripChars (subFences s)).length - jr)).drop
            ((stripChars (subFences s)).length - 1)) ∧
    (∀ i jr,
      findIdxA (fun x => x == openBrace) (stripChars (subFences s)) = some i →
      findIdxA (fun x => x == closeBrace)
          (stripChars (subFences s)).reverse = some jr →
      clean_json_string s =
        ((stripChars (subFences s)).take
          ((stripChars (subFences s)).length - jr)).drop i) := by
  refine ⟨?_, ?_, ?_⟩
  · intro h
    have hn : findIdxA (fun x => x == closeBrace)
        (stripChars (subFences s)).reverse = none := by
      refine findIdxA_eq_none fun a ha => ?_
      have : a ∈ stripChars (subFences s) := List.mem_reverse.mp ha
      have hne : a ≠ closeBrace := fun he => h (he ▸ this)
      simpa using hne
    exact braceSlice_no_close hn
  · intro hi jr hjr
    exact braceSlice_close_no_open hjr hi
  · intro i jr hi hjr
    exact braceSlice_both hi hjr

/-- C2 witness: `clean_json_string "x{a}y" = "{a}"`, obtained from the
both-braces clause of the amended claim at indices `i = 1`, `jr = 1`. -/
theorem C2_witness :
    clean_json_string ['x', openBrace, 'a', closeBrace, 'y']
      = [openBrace, 'a', closeBrace] := by
  have h := (C2_slice_fallbacks ['x', openBrace, 'a', closeBrace, 'y']).2.2
    1 1 (by decide) (by decide)
  rw [h]
  decide

/-! ### Claim C7 — idempotence of `clean_json_string` -/

/-- C7 counterexample: `clean_json_string` is not idempotent.
`clean_json_string "{`` ````}" = "{```}"`, but applying it again yields
`"{}"`. -/
theorem C7_counterexample :
    ¬ (clean_json_string (clean_json_string c7cexIn)
        = clean_json_string c7cexIn) := by decide

/-- C7 (amended): `clean_json_string` is idempotent on every input whose
output contains no three-backtick fence token (one `re.sub` pass can glue
a new fence together out of shorter backtick runs, which is the only
source of non-idempotence). -/
theorem C7_idempotent_no_fence (s : List Char)
    (hf : hasFence (clean_json_string s) = false) :
    clean_json_string (clean_json_string s) = clean_json_string s := by
  rcases braceSlice_shape (stripChars (subFences s)) with h | h | h
  · have h' : clean_json_string s = [] := h
    rw [h']
    decide
  · have h' : clean_json_string s = [closeBrace] := h
    rw [h']
    decide
  · have hh : (clean_json_string s).head? = some openBrace := h.1
    have hl : (clean_json_string s).getLast? = some closeBrace := h.2
    show braceSlice (stripChars (subFences (clean_json_string s)))
      = clean_json_string s
    rw [subFences_eq_self hf, stripChars_eq_self hh hl,
      braceSlice_eq_self hh hl]

/-- C7 witness: the fenced JSON example; its output has no fence token,
and re-cleaning it is a no-op. -/
theorem C7_witness :
    clean_json_string (clean_json_string [btick, btick, btick, 'j', 's',
        'o', 'n', '\n', openBrace, '\x22', 'a', '\x22', ':', '1',
        closeBrace, '\n', btick, btick, btick])
      = clean_json_string [btick, btick, btick, 'j', 's', 'o', 'n', '\n',
        openBrace, '\x22', 'a', '\x22', ':', '1', closeBrace, '\n',
        btick, btick, btick] :=
  C7_idempotent_no_fence _ (by decide)

/-! ### Claims C4 and C8 — the reminder-policy mapping -/

/-- C4: for the tag `당일 오전 8시 45분` (day-of-8:45am) the resolver
yields exactly one popup override whose minutes are `08:45` (525 minutes)
minus the start's time of day, clamped below by 0; in particular start
2024-03-15T07:00 yields 105 minutes and start 2024-03-15T10:00 yields 0
minutes. -/
theorem C4_day_of_reminder (dt : Nat) :
    resolveReminders "당일 오전 8시 45분" dt =
      { useDefault := false,
        overrides :=
          [("popup", max ((525 : Int) - ((dt % 1440 : Nat) : Int)) 0)] } ∧
    resolveReminders "당일 오전 8시 45분" (dtOf 2024 3 15 7 0) =
      { useDefault := false, overrides := [("popup", (105 : Int))] } ∧
    resolveReminders "당일 오전 8시 45분" (dtOf 2024 3 15 10 0) =
      { useDefault := false, overrides := [("popup", (0 : Int))] } := by
  refine ⟨?_, by decide, by decide⟩
  have expand : resolveReminders "당일 오전 8시 45분" dt =
      { useDefault := false,
        overrides := [("popup",
          if ((replaceTime dt 8 45 : Int) - (dt : Int)) < 0 then (0 : Int)
          else (replaceTime dt 8 45 : Int) - (dt : Int))] } := rfl
  have key : (if ((replaceTime dt 8 45 : Int) - (dt : Int)) < 0 then (0 : Int)
      else (replaceTime dt 8 45 : Int) - (dt : Int))
      = max ((525 : Int) - ((dt % 1440 : Nat) : Int)) 0 := by
    have h1 : dt % 1440 ≤ dt := Nat.mod_le dt 1440
    unfold replaceTime
    rw [max_def]
    split_ifs <;> omega
  rw [expand, key]

/-- C8: for the tag `이벤트 2일 전` (two-days-before) the resolver, for
every start, yields exactly one popup override of `2*24*60 = 2880`
minutes with the provider defaults disabled. -/
theorem C8_two_days_before (dt : Nat) :
    resolveReminders "이벤트 2일 전" dt =
      { useDefault := false, overrides := [("popup", (2880 : Int))] } := rfl

/-! ### Claim C6 — the reminder-tag invariant -/

/-- C6 counterexample: the parsed record does not normalize an
unrecognized reminder value; for the decoded value `"foo"` the stored
`reminder` field is `"foo"`, which is none of the three known tags, so
the claimed data-level invariant fails. -/
theorem C6_counterexample :
    (parseEventRecord ⟨none, none, none, none, some "foo"⟩).reminder
        = "foo" ∧
    ¬ ((parseEventRecord ⟨none, none, none, none, some "foo"⟩).reminder
          = "이벤트 2일 전" ∨
       (parseEventRecord ⟨none, none, none, none, some "foo"⟩).reminder
          = "당일 오전 8시 45분" ∨
       (parseEventRecord ⟨none, none, none, none, some "foo"⟩).reminder
          = "기본 알림") := by decide

/-- C6 (amended): a missing reminder value defaults to `기본 알림`
(default), and the only consumer of the field — the reminder resolver —
treats every value other than the two special tags exactly as the
default tag, so the normalization is behavioural, not stored. -/
theorem C6_reminder_normalization :
    (∀ d : EventDict, d.reminder? = none →
      (parseEventRecord d).reminder = "기본 알림") ∧
    (∀ (r : String) (dt : Nat),
      r ≠ "이벤트 2일 전" → r ≠ "당일 오전 8시 45분" →
      resolveReminders r dt = resolveReminders "기본 알림" dt) := by
  constructor
  · intro d hd
    show d.reminder?.getD "기본 알림" = "기본 알림"
    rw [hd]
    rfl
  · intro r dt h1 h2
    unfold resolveReminders
    rw [if_neg h1, if_neg h2, if_neg (by decide), if_neg (by decide)]

/-- C6 witness: a missing value stores the default tag, and the tag
`"foo"` resolves like the default tag. -/
theorem C6_witness :
    (parseEventRecord ⟨none, none, none, none, none⟩).reminder
        = "기본 알림" ∧
    resolveReminders "foo" 0 = resolveReminders "기본 알림" 0 :=
  ⟨C6_reminder_normalization.1 ⟨none, none, none, none, none⟩ rfl,
   C6_reminder_normalization.2 "foo" 0 (by decide) (by decide)⟩

/-! ### Claim C9 — field extraction defaults -/

/-- C9: the record parser reads `주제`, `일시`, `위치`, `설명`,
`알림_설정` with defaults empty string / empty sequence / `기본 알림`,
and coerces a single-string `일시` into a one-element sequence. -/
theorem C9_record_defaults (sub loc desc rem : Option String)
    (dv : Option DatesVal) (s : List Char) (xs : List JVal) :
    (parseEventRecord ⟨sub, dv, loc, desc, rem⟩).subject = sub.getD "" ∧
    (parseEventRecord ⟨sub, dv, loc, desc, rem⟩).location = loc.getD "" ∧
    (parseEventRecord ⟨sub, dv, loc, desc, rem⟩).description
        = desc.getD "" ∧
    (parseEventRecord ⟨sub, dv, loc, desc, rem⟩).reminder
        = rem.getD "기본 알림" ∧
    (parseEventRecord ⟨sub, dv, loc, desc, rem⟩).dates = coerceDates dv ∧
    coerceDates none = DatesField.list [] ∧
    coerceDates (some (DatesVal.str s)) = DatesField.list [JVal.str s] ∧
    coerceDates (some (DatesVal.arr xs)) = DatesField.list xs :=
  ⟨rfl, rfl, rfl, rfl, rfl, rfl, rfl, rfl⟩

/-! ### The loop on all-successful inserts -/

theorem handlesFrom_length (h : Nat → Nat) :
    ∀ (idx k : Nat), (handlesFrom h idx k).length = k := by
  intro idx k
  induction k generalizing idx with
  | zero => rfl
  | succ n ih => simp [handlesFrom, ih]

theorem runDates_ok (svc : Nat → EventDraft → InsertResult) (now : Nat)
    (subject location details reminder : String) (h : Nat → Nat)
    (hok : ∀ i dr, svc i dr = InsertResult.ok (h i)) :
    ∀ (ds : List (List Char)) (idx : Nat) (created : List Nat)
      (submitted : List EventDraft),
      runDates svc now subject location details reminder idx
          (ds.map JVal.str) created submitted =
        (created ++ handlesFrom h idx ds.length,
         submitted ++ ds.map (buildDraft now subject location details reminder),
         none) := by
  intro ds
  induction ds with
  | nil =>
    intro idx created submitted
    simp [runDates, handlesFrom]
  | cons s rest ih =>
    intro idx created submitted
    simp only [List.map_cons, List.length_cons, runDates, hok, handlesFrom]
    rw [ih (idx + 1)]
    simp

/-! ### Claim C5 — one draft per date, in order, end = start + 1 hour -/

/-- C5: on an authorized run whose dates are the strings `ds` and whose
every insert succeeds (the `i`-th returning handle `h i`), the function
returns one handle per date in input order, the created drafts are the
per-date builds in input order, every draft's end is its start plus 60
minutes, and `"2024년 03월 15일 10:00"` resolves to start
2024-03-15T10:00 with end 2024-03-15T11:00. -/
theorem C5_materializer (d : EventDict) (ds : List (List Char))
    (svc : Nat → EventDraft → InsertResult) (now : Nat) (h : Nat → Nat)
    (hd : d.dates? = some (DatesVal.arr (ds.map JVal.str)))
    (hok : ∀ i dr, svc i dr = InsertResult.ok (h i)) :
    create_google_calendar_event true svc now d =
      (ds.map (buildDraft now (d.subject?.getD "") (d.location?.getD "")
          (d.description?.getD "") (d.reminder?.getD "기본 알림")),
       RunOutcome.success (handlesFrom h 0 ds.length)) ∧
    (handlesFrom h 0 ds.length).length = ds.length ∧
    (∀ (a b c r : String) (s : List Char),
      (buildDraft now a b c r s).endTime
        = (buildDraft now a b c r s).start + 60) ∧
    parseDateStr ("2024년 03월 15일 10:00".toList)
        = some (dtOf 2024 3 15 10 0) ∧
    (buildDraft now "" "" "" "" ("2024년 03월 15일 10:00".toList)).start
        = dtOf 2024 3 15 10 0 ∧
    (buildDraft now "" "" "" "" ("2024년 03월 15일 10:00".toList)).endTime
        = dtOf 2024 3 15 11 0 := by
  have hp : parseDateStr ("2024년 03월 15일 10:00".toList)
      = some (dtOf 2024 3 15 10 0) := by decide
  have hstart : (buildDraft now "" "" "" ""
      ("2024년 03월 15일 10:00".toList)).start = dtOf 2024 3 15 10 0 := by
    show (match parseDateStr ("2024년 03월 15일 10:00".toList) with
      | some v => v
      | none => now + 7 * 1440) = dtOf 2024 3 15 10 0
    rw [hp]
  refine ⟨?_, handlesFrom_length h 0 ds.length,
    fun a b c r s => rfl, hp, hstart, ?_⟩
  · have hdates : (parseEventRecord d).dates
        = DatesField.list (ds.map JVal.str) := by
      show coerceDates d.dates? = _
      rw [hd]
      rfl
    unfold create_google_calendar_event
    rw [if_neg (by decide)]
    simp only [hdates, runDatesField]
    rw [runDates_ok svc now _ _ _ _ h hok ds 0 [] []]
    simp [finishRun, parseEventRecord]
  · have hend : (buildDraft now "" "" "" ""
        ("2024년 03월 15일 10:00".toList)).endTime
        = (buildDraft now "" "" "" ""
            ("2024년 03월 15일 10:00".toList)).start + 60 := rfl
    rw [hend, hstart]
    decide

/-- C5 witness: the two-date example with `svc` returning handle `i` for
call `i`. -/
theorem C5_witness :
    create_google_calendar_event true (fun i _ => InsertResult.ok i) 0
        ⟨some "회의", some (DatesVal.arr
          [JVal.str ("2024년 01월 01일 09:00".toList),
           JVal.str ("2024년 02월 01일 09:00".toList)]), none, none, none⟩
      = ([buildDraft 0 "회의" "" "" "기본 알림"
            ("2024년 01월 01일 09:00".toList),
          buildDraft 0 "회의" "" "" "기본 알림"
            ("2024년 02월 01일 09:00".toList)],
         RunOutcome.success (handlesFrom (fun i => i) 0 2)) := by
  have h := (C5_materializer
    ⟨some "회의", some (DatesVal.arr
      [JVal.str ("2024년 01월 01일 09:00".toList),
       JVal.str ("2024년 02월 01일 09:00".toList)]), none, none, none⟩
    [("2024년 01월 01일 09:00".toList), ("2024년 02월 01일 09:00".toList)]
    (fun i _ => InsertResult.ok i) 0 (fun i => i) rfl
    (fun i dr => rfl)).1
  simpa using h

/-! ### Claim C10 — empty dates give an empty success -/

/-- C10: on an authorized run whose record has no dates (absent `일시`
or an empty array), no draft is submitted and the function returns the
empty handle list — a success value distinct from every failure
signal. -/
theorem C10_empty_dates (svc : Nat → EventDraft → InsertResult)
    (now : Nat) (d : EventDict)
    (hd : d.dates? = none ∨ d.dates? = some (DatesVal.arr [])) :
    create_google_calendar_event true svc now d
        = ([], RunOutcome.success []) ∧
    ∀ c : FailCond,
      RunOutcome.success ([] : List Nat) ≠ RunOutcome.failure c := by
  constructor
  · have hdates : (parseEventRecord d).dates = DatesField.list [] := by
      show coerceDates d.dates? = _
      rcases hd with h | h <;> (rw [h]; rfl)
    unfold create_google_calendar_event
    rw [if_neg (by decide)]
    simp only [hdates, runDatesField, runDates, finishRun]
  · intro c hcon
    exact RunOutcome.noConfusion hcon

/-- C10 witness: the record with no `일시` key. -/
theorem C10_witness :
    create_google_calendar_event true (fun _ _ => InsertResult.exn) 0
        ⟨some "회의", none, none, none, none⟩
      = ([], RunOutcome.success []) :=
  (C10_empty_dates (fun _ _ => InsertResult.exn) 0
    ⟨some "회의", none, none, none, none⟩ (Or.inl rfl)).1

/-! ### Claim C1 — authorization failures and partial submission -/

/-- C1 counterexample: with two dates, a 401 on the second insert makes
the run report the authorization failure while the first date's draft
was already created by the provider — exactly one of the two drafts is
submitted although the operation reports failure, refuting the claimed
all-or-nothing behaviour. -/
theorem C1_counterexample :
    (create_google_calendar_event true c1svc 0 c1dict).2
        = RunOutcome.failure FailCond.authRequired ∧
    (create_google_calendar_event true c1svc 0 c1dict).1
        = [buildDraft 0 "행사" "" "" "기본 알림" ("a".toList)] ∧
    (parseEventRecord c1dict).dates
        = DatesField.list [.str ("a".toList), .str ("b".toList)] := by
  decide

/-- C1 (amended): a missing credential aborts before any submission and
signals authorization-required; an insert rejected with status 401 or
403 stops the loop at once — no later date is submitted — and signals
authorization-required; but drafts whose inserts already succeeded
before the failing call remain submitted. -/
theorem C1_auth_abort :
    (∀ (svc : Nat → EventDraft → InsertResult) (now : Nat) (d : EventDict),
      create_google_calendar_event false svc now d
        = ([], RunOutcome.failure FailCond.authRequired)) ∧
    (∀ (svc : Nat → EventDraft → InsertResult) (now : Nat)
      (a b c r : String) (idx : Nat) (s : List Char) (rest : List JVal)
      (created : List Nat) (submitted : List EventDraft) (st : Nat),
      (st = 401 ∨ st = 403) →
      svc idx (buildDraft now a b c r s) = InsertResult.httpError st →
      runDates svc now a b c r idx (JVal.str s :: rest) created submitted
        = (created, submitted, some FailCond.authRequired)) := by
  constructor
  · intro svc now d
    rfl
  · intro svc now a b c r idx s rest created submitted st hst hsvc
    simp only [runDates, hsvc]
    rw [if_pos hst]

/-- C1 witness: the missing-credential case, and a 403 on the first of
two dates aborting with nothing submitted. -/
theorem C1_witness :
    create_google_calendar_event false (fun _ _ => InsertResult.exn) 0
        ⟨none, none, none, none, none⟩
      = ([], RunOutcome.failure FailCond.authRequired) ∧
    runDates (fun _ _ => InsertResult.httpError 403) 0 "s" "l" "d" "r" 0
        [JVal.str ("x".toList), JVal.str ("y".toList)] [] []
      = ([], [], some FailCond.authRequired) :=
  ⟨C1_auth_abort.1 (fun _ _ => InsertResult.exn) 0
      ⟨none, none, none, none, none⟩,
   C1_auth_abort.2 (fun _ _ => InsertResult.httpError 403) 0 "s" "l" "d"
      "r" 0 ("x".toList) [JVal.str ("y".toList)] [] [] 403
      (Or.inr rfl) rfl⟩

/-! ### Claim C3 — date-parse fallback versus non-string entries -/

/-- C3 counterexample: a non-string dates entry does not fall back — it
raises `TypeError` inside `datetime.strptime`, which the inner
`except ValueError` does not catch, so the whole run aborts with the
generic unexpected-error condition and the remaining well-formed date is
never materialized, refuting the never-aborts claim for non-string
entries. -/
theorem C3_counterexample :
    create_google_calendar_event true (fun i _ => InsertResult.ok i) 0
        c3dict
      = ([], RunOutcome.failure FailCond.unexpectedError) := by
  decide

/-- C3 (amended): for every string entry that fails to parse against
`"%Y년 %m월 %d일 %H:%M"`, the resolver never raises: the draft's start
is the fallback now + 7 days, and — when the insert succeeds — the loop
proceeds to the remaining dates; a non-string entry, however, aborts the
run (see the counterexample). -/
theorem C3_parse_fallback (now : Nat) (a b c r : String) (s : List Char)
    (hbad : parseDateStr s = none) :
    (buildDraft now a b c r s).start = now + 7 * 1440 ∧
    (∀ (svc : Nat → EventDraft → InsertResult) (idx : Nat)
      (rest : List JVal) (created : List Nat)
      (submitted : List EventDraft) (hh : Nat),
      svc idx (buildDraft now a b c r s) = InsertResult.ok hh →
      runDates svc now a b c r idx (JVal.str s :: rest) created submitted
        = runDates svc now a b c r (idx + 1) rest (created ++ [hh])
            (submitted ++ [buildDraft now a b c r s])) := by
  constructor
  · show (match parseDateStr s with
      | some v => v
      | none => now + 7 * 1440) = now + 7 * 1440
    rw [hbad]
  · intro svc idx rest created submitted hh hsvc
    simp only [runDates, hsvc]

/-- C3 witness: the malformed date `"March 15"` falls back to now + 7
days and the loop continues with the next date. -/
theorem C3_witness :
    (buildDraft 0 "" "" "" "" ("March 15".toList)).start = 0 + 7 * 1440 ∧
    runDates (fun i _ => InsertResult.ok i) 0 "" "" "" "" 0
        [JVal.str ("March 15".toList),
         JVal.str ("2024년 03월 15일 10:00".toList)] [] []
      = runDates (fun i _ => InsertResult.ok i) 0 "" "" "" "" 1
          [JVal.str ("2024년 03월 15일 10:00".toList)] ([] ++ [0])
          ([] ++ [buildDraft 0 "" "" "" "" ("March 15".toList)]) :=
  ⟨(C3_parse_fallback 0 "" "" "" "" ("March 15".toList) (by decide)).1,
   (C3_parse_fallback 0 "" "" "" "" ("March 15".toList) (by decide)).2
     (fun i _ => InsertResult.ok i) 0
     [JVal.str ("2024년 03월 15일 10:00".toList)] [] [] 0 rfl⟩

end Cals
